import Mathlib

/-!
Verification of the call-tree tracer of the revm-tracer repository.

The development shallowly embeds the observer defined in
src/rust/src/trace/inspector.rs (struct CallTracer together with its
Inspector implementation) and the result-extraction step of
src/rust/src/trace/trace.rs. Machine integers (U256, u64, addresses,
bytes) are modelled as Nat; byte sequences as List Nat; the Vec stack as
a List whose head is the top of the stack (Vec.push is cons, Vec.pop
takes the head, Vec.last_mut is the head).
-/

/-- Mirrors struct LogEntry of inspector.rs: emitting address, topic
hashes (B256 values, modelled as Nat), opaque data bytes. -/
structure LogEntry where
  address : Nat
  topics : List Nat
  data : List Nat
deriving DecidableEq, Repr

/-- Mirrors struct CallFrame of inspector.rs. The Rust field names are
call_type, from, to, value, gas, gas_used, input, output, error,
revert_reason, logs, calls; the field named from is a Lean keyword so the
constructor binder is named fromAddr, and to is named toAddr. The type is
a nested inductive because calls holds child CallFrame nodes. -/
inductive CallFrame : Type where
  | mk (call_type : String) (fromAddr : Nat) (toAddr : Option Nat)
      (value : Nat) (gas : Nat) (gas_used : Nat)
      (input : List Nat) (output : Option (List Nat))
      (error : Option String) (revert_reason : Option String)
      (logs : List LogEntry) (calls : List CallFrame) : CallFrame

/-- Projection of the call_type field. -/
def CallFrame.call_type : CallFrame → String
  | .mk ct _ _ _ _ _ _ _ _ _ _ _ => ct

/-- Projection of the from field. -/
def CallFrame.fromAddr : CallFrame → Nat
  | .mk _ fa _ _ _ _ _ _ _ _ _ _ => fa

/-- Projection of the to field. -/
def CallFrame.toAddr : CallFrame → Option Nat
  | .mk _ _ ta _ _ _ _ _ _ _ _ _ => ta

/-- Projection of the value field. -/
def CallFrame.value : CallFrame → Nat
  | .mk _ _ _ v _ _ _ _ _ _ _ _ => v

/-- Projection of the gas field. -/
def CallFrame.gas : CallFrame → Nat
  | .mk _ _ _ _ g _ _ _ _ _ _ _ => g

/-- Projection of the gas_used field. -/
def CallFrame.gas_used : CallFrame → Nat
  | .mk _ _ _ _ _ gu _ _ _ _ _ _ => gu

/-- Projection of the input field. -/
def CallFrame.input : CallFrame → List Nat
  | .mk _ _ _ _ _ _ i _ _ _ _ _ => i

/-- Projection of the output field. -/
def CallFrame.output : CallFrame → Option (List Nat)
  | .mk _ _ _ _ _ _ _ o _ _ _ _ => o

/-- Projection of the error field. -/
def CallFrame.error : CallFrame → Option String
  | .mk _ _ _ _ _ _ _ _ e _ _ _ => e

/-- Projection of the revert_reason field. -/
def CallFrame.revert_reason : CallFrame → Option String
  | .mk _ _ _ _ _ _ _ _ _ r _ _ => r

/-- Projection of the logs field. -/
def CallFrame.logs : CallFrame → List LogEntry
  | .mk _ _ _ _ _ _ _ _ _ _ ls _ => ls

/-- Projection of the calls field. -/
def CallFrame.calls : CallFrame → List CallFrame
  | .mk _ _ _ _ _ _ _ _ _ _ _ cs => cs

/-- Mirrors parent.calls.push(frame) of finalize_frame: Vec.push appends
at the end of the child list. -/
def CallFrame.pushCall : CallFrame → CallFrame → CallFrame
  | .mk ct fa ta v g gu i o e r ls cs, c => .mk ct fa ta v g gu i o e r ls (cs ++ [c])

/-- Mirrors frame.logs.push(entry) of the log hook: Vec.push appends at
the end of the log list. -/
def CallFrame.pushLog : CallFrame → LogEntry → CallFrame
  | .mk ct fa ta v g gu i o e r ls cs, l => .mk ct fa ta v g gu i o e r (ls ++ [l]) cs

/-- Lowercase hexadecimal digit of a value below 16, as produced by the
hex crate (0-9 then a-f). -/
def hexDigit (n : Nat) : Char :=
  if n < 10 then Char.ofNat (48 + n) else Char.ofNat (87 + n)

/-- Two lowercase hexadecimal digits of one byte, as produced by
hex encoding of a byte slice. -/
def byteHex (b : Nat) : String :=
  String.mk [hexDigit (b / 16 % 16), hexDigit (b % 16)]

/-- Models hex encode of the hex crate: each byte becomes two lowercase
hexadecimal digits, in order. -/
def hexEncode (bs : List Nat) : String :=
  String.join (bs.map byteHex)

/-- Models Address.into_array(): the 20 bytes of the address in
big-endian order. -/
def addressBytes (a : Nat) : List Nat :=
  (List.range 20).map fun i => a / 256 ^ (19 - i) % 256

/-- Mirrors struct CallTracer of inspector.rs: one explicit stack of open
call frames. The head of the list is the top of the Rust Vec. -/
structure CallTracer where
  call_stack : List CallFrame

/-- Mirrors CallTracer::new. -/
def CallTracer.new : CallTracer := ⟨[]⟩

/-- Mirrors CallTracer::into_result: self.call_stack.pop(), returning the
top of the stack if any. -/
def CallTracer.into_result (t : CallTracer) : Option CallFrame :=
  t.call_stack.head?

/-- Mirrors CallTracer::call_type_from_scheme: the scheme byte of the
call, 0 CALL, 1 CALLCODE, 2 DELEGATECALL, 3 STATICCALL, UNKNOWN else. -/
def call_type_from_scheme (scheme : Nat) : String :=
  match scheme with
  | 0 => "CALL"
  | 1 => "CALLCODE"
  | 2 => "DELEGATECALL"
  | 3 => "STATICCALL"
  | _ => "UNKNOWN"

/-- The frame transformation applied by CallTracer::finalize_frame to the
popped frame: set gas_used; on success with a created address set to and
output to the address bytes, on success without one set output to the raw
returned bytes; on failure set error to the fixed marker and, when the
returned bytes are non-empty, revert_reason to their 0x-prefixed
hexadecimal encoding. -/
def closeFrame : CallFrame → Nat → Bool → List Nat → Option Nat → CallFrame
  | .mk ct fa ta v g _ i o e r ls cs, gas_spent, is_ok, out, created_address =>
    if is_ok then
      match created_address with
      | some a => .mk ct fa (some a) v g gas_spent i (some (addressBytes a)) e r ls cs
      | none => .mk ct fa ta v g gas_spent i (some out) e r ls cs
    else
      .mk ct fa ta v g gas_spent i o (some "execution reverted")
        (if out.isEmpty then r else some ("0x" ++ hexEncode out)) ls cs

/-- Mirrors CallTracer::finalize_frame: pop the top frame if any, close
it, then append it to the child list of the new top frame when the stack
is still non-empty, or push it back as the completed root when the stack
became empty. An empty stack leaves the tracer unchanged. -/
def CallTracer.finalize_frame (t : CallTracer) (gas_spent : Nat) (is_ok : Bool)
    (out : List Nat) (created_address : Option Nat) : CallTracer :=
  match t.call_stack with
  | [] => t
  | frame :: rest =>
    let closed := closeFrame frame gas_spent is_ok out created_address
    match rest with
    | parent :: rest2 => ⟨parent.pushCall closed :: rest2⟩
    | [] => ⟨[closed]⟩

/-- The frame pushed by the call hook of the Inspector implementation:
call_type from the scheme byte, value the transfer value defaulting to
zero, from the caller and to the target address, except for DELEGATECALL
where from is the target address (the delegating contract itself) and to
is the bytecode address. -/
def callFrameOnEnter (scheme caller target_address bytecode_address : Nat)
    (transfer_value : Option Nat) (gas_limit : Nat) (input : List Nat) : CallFrame :=
  let call_type := call_type_from_scheme scheme
  let value := transfer_value.getD 0
  let fromA := if call_type = "DELEGATECALL" then target_address else caller
  let toA := if call_type = "DELEGATECALL" then some bytecode_address else some target_address
  CallFrame.mk call_type fromA toA value gas_limit 0 input none none none [] []

/-- Mirrors the call hook: push the new frame on the stack. -/
def CallTracer.call (t : CallTracer) (scheme caller target_address bytecode_address : Nat)
    (transfer_value : Option Nat) (gas_limit : Nat) (input : List Nat) : CallTracer :=
  ⟨callFrameOnEnter scheme caller target_address bytecode_address transfer_value gas_limit input
    :: t.call_stack⟩

/-- The frame pushed by the create hook: CREATE or CREATE2 from the
creation scheme, from the caller, to unset, input the init code. -/
def createFrameOnEnter (scheme_is_create : Bool) (caller value gas_limit : Nat)
    (init_code : List Nat) : CallFrame :=
  CallFrame.mk (if scheme_is_create then "CREATE" else "CREATE2") caller none value
    gas_limit 0 init_code none none none [] []

/-- Mirrors the create hook: push the new frame on the stack. -/
def CallTracer.create (t : CallTracer) (scheme_is_create : Bool) (caller value gas_limit : Nat)
    (init_code : List Nat) : CallTracer :=
  ⟨createFrameOnEnter scheme_is_create caller value gas_limit init_code :: t.call_stack⟩

/-- Mirrors the call_end hook: finalize with no created address. -/
def CallTracer.call_end (t : CallTracer) (gas_spent : Nat) (is_ok : Bool)
    (out : List Nat) : CallTracer :=
  t.finalize_frame gas_spent is_ok out none

/-- Mirrors the create_end hook: finalize with the created address of the
creation outcome. -/
def CallTracer.create_end (t : CallTracer) (gas_spent : Nat) (is_ok : Bool)
    (out : List Nat) (address : Option Nat) : CallTracer :=
  t.finalize_frame gas_spent is_ok out address

/-- Mirrors the log hook: append the entry to the frame at the top of the
stack; a no-op when the stack is empty. -/
def CallTracer.log (t : CallTracer) (l : LogEntry) : CallTracer :=
  match t.call_stack with
  | [] => t
  | frame :: rest => ⟨frame.pushLog l :: rest⟩

/-- Mirrors enum TraceError of error.rs. -/
inductive TraceError : Type where
  | txEnvBuild (msg : String)
  | opTxBuild (msg : String)
  | execution (msg : String)
  | blockConversion (msg : String)
  | invalidAddress (s : String)
  | invalidHexData (s : String)
  | jsonParse (msg : String)
  | noTraceResult
deriving DecidableEq, Repr

/-- Mirrors the result-extraction step of trace_transaction and of
trace_transaction_op in trace.rs: inspector.into_result() with
ok_or(TraceError::NoTraceResult). -/
def extract_root (t : CallTracer) : Except TraceError CallFrame :=
  match t.into_result with
  | some calls => Except.ok calls
  | none => Except.error TraceError.noTraceResult

/-- An enter lifecycle event of the engine: either a call (scheme byte,
caller, target address, bytecode address, transfer value, gas limit,
input) or a creation (scheme, caller, value, gas limit, init code). -/
inductive EnterEv : Type where
  | call (scheme caller target_address bytecode_address : Nat)
      (transfer_value : Option Nat) (gas_limit : Nat) (input : List Nat)
  | create (scheme_is_create : Bool) (caller value gas_limit : Nat) (init_code : List Nat)
deriving DecidableEq, Repr

/-- An exit lifecycle event of the engine: spent gas, success flag,
returned bytes, and for creations the optional created address. -/
inductive ExitEv : Type where
  | callEnd (gas_spent : Nat) (is_ok : Bool) (out : List Nat)
  | createEnd (gas_spent : Nat) (is_ok : Bool) (out : List Nat) (address : Option Nat)
deriving DecidableEq, Repr

/-- One lifecycle event delivered to the tracer by the engine, in strict
program order. -/
inductive Event : Type where
  | enterEv (e : EnterEv)
  | exitEv (x : ExitEv)
  | logEv (l : LogEntry)
deriving DecidableEq, Repr

/-- Whether the event is an enter event (a call or create hook). -/
def Event.isEnter : Event → Bool
  | .enterEv _ => true
  | _ => false

/-- Gas limit carried by an enter event. -/
def EnterEv.gasLimit : EnterEv → Nat
  | .call _ _ _ _ _ gl _ => gl
  | .create _ _ _ gl _ => gl

/-- Gas spent carried by an exit event. -/
def ExitEv.gasSpent : ExitEv → Nat
  | .callEnd gs _ _ => gs
  | .createEnd gs _ _ _ => gs

/-- The frame pushed by the matching enter hook of the tracer. -/
def enterFrame : EnterEv → CallFrame
  | .call sch c tg b tv gl i => callFrameOnEnter sch c tg b tv gl i
  | .create isc c v gl ic => createFrameOnEnter isc c v gl ic

/-- The frame transformation of the matching exit hook: call_end passes
no created address, create_end passes the one of the outcome. -/
def applyExit (f : CallFrame) : ExitEv → CallFrame
  | .callEnd gs ok out => closeFrame f gs ok out none
  | .createEnd gs ok out a => closeFrame f gs ok out a

/-- Dispatch of one engine event to the corresponding hook of the
Inspector implementation of CallTracer. -/
def stepEv (t : CallTracer) : Event → CallTracer
  | .enterEv (.call sch c tg b tv gl i) => t.call sch c tg b tv gl i
  | .enterEv (.create isc c v gl ic) => t.create isc c v gl ic
  | .exitEv (.callEnd gs ok out) => t.call_end gs ok out
  | .exitEv (.createEnd gs ok out a) => t.create_end gs ok out a
  | .logEv l => t.log l

/-- The tracer after consuming an ordered event stream. -/
def runEvents (evs : List Event) (t : CallTracer) : CallTracer :=
  evs.foldl stepEv t

/-- Body of a well-formed call: an ordered forest of log emissions and
complete sub-calls, each sub-call an enter event, its own body, and the
matching exit event. -/
inductive EvTree : Type where
  | nil : EvTree
  | logItem (l : LogEntry) (rest : EvTree) : EvTree
  | subItem (e : EnterEv) (body : EvTree) (x : ExitEv) (rest : EvTree) : EvTree
deriving DecidableEq, Repr

/-- The flat ordered event stream of a body. -/
def flattenBody : EvTree → List Event
  | .nil => []
  | .logItem l r => Event.logEv l :: flattenBody r
  | .subItem e b x r =>
      Event.enterEv e :: (flattenBody b ++ (Event.exitEv x :: flattenBody r))

/-- The log entries a body emits directly into its enclosing frame, in
emission order. -/
def bodyLogs : EvTree → List LogEntry
  | .nil => []
  | .logItem l r => l :: bodyLogs r
  | .subItem _ _ _ r => bodyLogs r

/-- Extension of an open frame by the logs and closed children its body
contributed, appended in order. -/
def addBody : CallFrame → List LogEntry → List CallFrame → CallFrame
  | .mk ct fa ta v g gu i o e r ls cs, ls2, cs2 =>
      .mk ct fa ta v g gu i o e r (ls ++ ls2) (cs ++ cs2)

/-- The closed child frames a body contributes to its enclosing frame, in
call order: each sub-call is its enter frame, extended by its own body,
closed by its exit event. -/
def bodyCalls : EvTree → List CallFrame
  | .nil => []
  | .logItem _ r => bodyCalls r
  | .subItem e b x r =>
      applyExit (addBody (enterFrame e) (bodyLogs b) (bodyCalls b)) x :: bodyCalls r

/-- The full event stream of one top-level call: enter, body, exit. -/
def topEvents (e : EnterEv) (b : EvTree) (x : ExitEv) : List Event :=
  Event.enterEv e :: (flattenBody b ++ [Event.exitEv x])

theorem runEvents_nil (t : CallTracer) : runEvents [] t = t := rfl

theorem runEvents_cons (ev : Event) (evs : List Event) (t : CallTracer) :
    runEvents (ev :: evs) t = runEvents evs (stepEv t ev) := rfl

theorem runEvents_append (xs ys : List Event) (t : CallTracer) :
    runEvents (xs ++ ys) t = runEvents ys (runEvents xs t) := by
  simp [runEvents, List.foldl_append]

theorem call_stack_mk (s : List CallFrame) : (CallTracer.mk s).call_stack = s := rfl

theorem stepEv_enter (t : CallTracer) (e : EnterEv) :
    stepEv t (Event.enterEv e) = ⟨enterFrame e :: t.call_stack⟩ := by
  cases e <;> rfl

theorem stepEv_log_cons (f : CallFrame) (rest : List CallFrame) (l : LogEntry) :
    stepEv ⟨f :: rest⟩ (Event.logEv l) = ⟨f.pushLog l :: rest⟩ := rfl

theorem stepEv_exit_two (g p : CallFrame) (rest : List CallFrame) (x : ExitEv) :
    stepEv ⟨g :: p :: rest⟩ (Event.exitEv x) = ⟨p.pushCall (applyExit g x) :: rest⟩ := by
  cases x <;> rfl

theorem stepEv_exit_one (g : CallFrame) (x : ExitEv) :
    stepEv ⟨[g]⟩ (Event.exitEv x) = ⟨[applyExit g x]⟩ := by
  cases x <;> rfl

theorem addBody_nil (f : CallFrame) : addBody f [] [] = f := by
  cases f; simp [addBody]

theorem addBody_pushLog (f : CallFrame) (l : LogEntry) (ls : List LogEntry)
    (cs : List CallFrame) : addBody (f.pushLog l) ls cs = addBody f (l :: ls) cs := by
  cases f; simp [addBody, CallFrame.pushLog]

theorem addBody_pushCall (f c : CallFrame) (ls : List LogEntry) (cs : List CallFrame) :
    addBody (f.pushCall c) ls cs = addBody f ls (c :: cs) := by
  cases f; simp [addBody, CallFrame.pushCall]

/-- Simulation of a body stream: consuming the flattened body of a
well-formed call extends the frame on top of the stack by exactly the
logs and closed child frames of the body, in order, and touches nothing
below the top of the stack. -/
theorem runBody (b : EvTree) : ∀ (f : CallFrame) (rest : List CallFrame),
    runEvents (flattenBody b) ⟨f :: rest⟩ =
      ⟨addBody f (bodyLogs b) (bodyCalls b) :: rest⟩ := by
  induction b with
  | nil =>
      intro f rest
      simp [flattenBody, runEvents_nil, bodyLogs, bodyCalls, addBody_nil]
  | logItem l r ih =>
      intro f rest
      rw [flattenBody, runEvents_cons, stepEv_log_cons, ih, addBody_pushLog]
      rfl
  | subItem e b x r ihb ihr =>
      intro f rest
      rw [flattenBody, runEvents_cons, stepEv_enter, call_stack_mk, runEvents_append,
        ihb, runEvents_cons, stepEv_exit_two, ihr, addBody_pushCall]
      rfl

/-- Simulation of one full top-level call: from the fresh tracer, the
stream enter-body-exit ends with exactly one frame on the stack, the
enter frame extended by the body and closed by the exit. -/
theorem runTop (e : EnterEv) (b : EvTree) (x : ExitEv) :
    runEvents (topEvents e b x) CallTracer.new =
      ⟨[applyExit (addBody (enterFrame e) (bodyLogs b) (bodyCalls b)) x]⟩ := by
  rw [topEvents, runEvents_cons, stepEv_enter]
  rw [show (CallTracer.new.call_stack) = ([] : List CallFrame) from rfl]
  rw [runEvents_append, runBody, runEvents_cons, stepEv_exit_one, runEvents_nil]

theorem closeFrame_gas (f : CallFrame) (gs : Nat) (ok : Bool) (out : List Nat)
    (ca : Option Nat) : (closeFrame f gs ok out ca).gas = f.gas := by
  cases f <;> cases ok <;> cases ca <;> simp [closeFrame, CallFrame.gas]

theorem closeFrame_gas_used (f : CallFrame) (gs : Nat) (ok : Bool) (out : List Nat)
    (ca : Option Nat) : (closeFrame f gs ok out ca).gas_used = gs := by
  cases f <;> cases ok <;> cases ca <;> simp [closeFrame, CallFrame.gas_used]

theorem closeFrame_calls (f : CallFrame) (gs : Nat) (ok : Bool) (out : List Nat)
    (ca : Option Nat) : (closeFrame f gs ok out ca).calls = f.calls := by
  cases f <;> cases ok <;> cases ca <;> simp [closeFrame, CallFrame.calls]

theorem applyExit_gas (f : CallFrame) (x : ExitEv) : (applyExit f x).gas = f.gas := by
  cases x <;> simp [applyExit, closeFrame_gas]

theorem applyExit_gas_used (f : CallFrame) (x : ExitEv) :
    (applyExit f x).gas_used = x.gasSpent := by
  cases x <;> simp [applyExit, closeFrame_gas_used, ExitEv.gasSpent]

theorem applyExit_calls (f : CallFrame) (x : ExitEv) : (applyExit f x).calls = f.calls := by
  cases x <;> simp [applyExit, closeFrame_calls]

theorem addBody_gas (f : CallFrame) (ls : List LogEntry) (cs : List CallFrame) :
    (addBody f ls cs).gas = f.gas := by
  cases f; simp [addBody, CallFrame.gas]

theorem addBody_gas_used (f : CallFrame) (ls : List LogEntry) (cs : List CallFrame) :
    (addBody f ls cs).gas_used = f.gas_used := by
  cases f; simp [addBody, CallFrame.gas_used]

theorem addBody_calls (f : CallFrame) (ls : List LogEntry) (cs : List CallFrame) :
    (addBody f ls cs).calls = f.calls ++ cs := by
  cases f; simp [addBody, CallFrame.calls]

theorem addBody_logs (f : CallFrame) (ls : List LogEntry) (cs : List CallFrame) :
    (addBody f ls cs).logs = f.logs ++ ls := by
  cases f; simp [addBody, CallFrame.logs]

theorem enterFrame_gas (e : EnterEv) : (enterFrame e).gas = e.gasLimit := by
  cases e <;> simp [enterFrame, callFrameOnEnter, createFrameOnEnter, EnterEv.gasLimit,
    CallFrame.gas]

theorem enterFrame_gas_used (e : EnterEv) : (enterFrame e).gas_used = 0 := by
  cases e <;> simp [enterFrame, callFrameOnEnter, createFrameOnEnter, CallFrame.gas_used]

theorem enterFrame_calls (e : EnterEv) : (enterFrame e).calls = [] := by
  cases e <;> simp [enterFrame, callFrameOnEnter, createFrameOnEnter, CallFrame.calls]

theorem enterFrame_logs (e : EnterEv) : (enterFrame e).logs = [] := by
  cases e <;> simp [enterFrame, callFrameOnEnter, createFrameOnEnter, CallFrame.logs]

/-- The per-frame gas invariant of the spec, recursively down the child
lists: gas_used never exceeds the gas supplied at entry. -/
inductive FrameGasInv : CallFrame → Prop where
  | mk (ct : String) (fa : Nat) (ta : Option Nat) (v g gu : Nat) (i : List Nat)
      (o : Option (List Nat)) (e r : Option String) (ls : List LogEntry)
      (cs : List CallFrame) (hg : gu ≤ g) (hc : ∀ c ∈ cs, FrameGasInv c) :
      FrameGasInv (.mk ct fa ta v g gu i o e r ls cs)

theorem frameGasInv_of (f : CallFrame) (h1 : f.gas_used ≤ f.gas)
    (h2 : ∀ c ∈ f.calls, FrameGasInv c) : FrameGasInv f := by
  cases f
  exact FrameGasInv.mk _ _ _ _ _ _ _ _ _ _ _ _ h1 h2

/-- The engine-side gas contract on a body: every exit event reports a
spent amount no larger than the gas limit of its matching enter event. -/
inductive BodyGasOk : EvTree → Prop where
  | nil : BodyGasOk .nil
  | logItem (l : LogEntry) (r : EvTree) (hr : BodyGasOk r) : BodyGasOk (.logItem l r)
  | subItem (e : EnterEv) (b : EvTree) (x : ExitEv) (r : EvTree)
      (hg : x.gasSpent ≤ e.gasLimit) (hb : BodyGasOk b) (hr : BodyGasOk r) :
      BodyGasOk (.subItem e b x r)

theorem bodyCalls_gasInv (b : EvTree) (h : BodyGasOk b) :
    ∀ c ∈ bodyCalls b, FrameGasInv c := by
  induction h with
  | nil => intro c hc; simp [bodyCalls] at hc
  | logItem l r hr ih => intro c hc; rw [bodyCalls] at hc; exact ih c hc
  | subItem e b x r hg hb hr ihb ihr =>
      intro c hc
      rw [bodyCalls] at hc
      rcases List.mem_cons.mp hc with h1 | h2
      · subst h1
        apply frameGasInv_of
        · rw [applyExit_gas_used, applyExit_gas, addBody_gas, enterFrame_gas]
          exact hg
        · rw [applyExit_calls, addBody_calls, enterFrame_calls, List.nil_append]
          exact ihb
      · exact ihr c h2

/-- A JSON value, as produced by the serde serialization of the trace
types. Objects are ordered key-value lists, the order serde emits. -/
inductive Json : Type where
  | jstr (s : String)
  | jnull
  | jarr (xs : List Json)
  | jobj (fields : List (String × Json))

/-- The field list of an object value, empty for every other value. -/
def objFields : Json → List (String × Json)
  | .jobj fs => fs
  | _ => []

/-- Models the serde serialization of a U256 value in the wire form:
the hex_u256 module of inspector.rs writes the string 0x followed by the
lowercase hexadecimal digits of the value, and the dependency-provided
human-readable serialization used for the gas fields writes the same
0x-prefixed hexadecimal string form. -/
def serializeU256 (n : Nat) : Json :=
  Json.jstr ("0x" ++ String.mk (Nat.toDigits 16 n))

/-- Models the serde serialization of an address: 0x followed by the 40
hexadecimal digits of its 20 bytes. -/
def serializeAddress (a : Nat) : Json :=
  Json.jstr ("0x" ++ hexEncode (addressBytes a))

/-- Models the serde serialization of a byte sequence: 0x followed by its
hexadecimal digits. -/
def serializeBytes (bs : List Nat) : Json :=
  Json.jstr ("0x" ++ hexEncode bs)

/-- Models the serde serialization of a 256-bit hash: 0x followed by the
64 hexadecimal digits of its 32 bytes. -/
def serializeB256 (n : Nat) : Json :=
  Json.jstr ("0x" ++ hexEncode ((List.range 32).map fun i => n / 256 ^ (31 - i) % 256))

/-- Serialization of an optional value without a skip attribute: serde
writes null when the option is absent, so the key is always present. -/
def optJson (g : α → Json) : Option α → Json
  | some a => g a
  | none => Json.jnull

/-- Models the serde serialization of a LogEntry, camelCase renaming
applied. -/
def serializeLog (l : LogEntry) : Json :=
  Json.jobj [("address", serializeAddress l.address),
    ("topics", Json.jarr (l.topics.map serializeB256)),
    ("data", serializeBytes l.data)]

/-- Models the serde serialization of a CallFrame, following the field
attributes of inspector.rs: camelCase renaming, call_type renamed to
type, value through the hex_u256 module, error and revert_reason skipped
when None, calls skipped when empty; to and output carry no skip
attribute, so an absent value serializes as null under its key. -/
def serializeFrame : CallFrame → Json
  | .mk ct fa ta v g gu i o e r ls cs =>
    Json.jobj (
      [("type", Json.jstr ct),
       ("from", serializeAddress fa),
       ("to", optJson serializeAddress ta),
       ("value", serializeU256 v),
       ("gas", serializeU256 g),
       ("gasUsed", serializeU256 gu),
       ("input", serializeBytes i),
       ("output", optJson serializeBytes o)]
      ++ (match e with | some s => [("error", Json.jstr s)] | none => [])
      ++ (match r with | some s => [("revertReason", Json.jstr s)] | none => [])
      ++ [("logs", Json.jarr (ls.map serializeLog))]
      ++ (if cs.isEmpty then []
          else [("calls", Json.jarr (cs.attach.map fun c => serializeFrame c.1))]))
decreasing_by
  have h1 := List.sizeOf_lt_of_mem c.2
  simp only [CallFrame.mk.sizeOf_spec]
  omega

/-- The ordered key list of the serialized form of a frame. -/
def serKeys (f : CallFrame) : List String :=
  (objFields (serializeFrame f)).map Prod.fst

theorem runEvents_no_enter_empty (evs : List Event) :
    ∀ t : CallTracer, t.call_stack = [] → (∀ ev ∈ evs, ev.isEnter = false) →
    (runEvents evs t).call_stack = [] := by
  induction evs with
  | nil => intro t h _; exact h
  | cons ev evs ih =>
      intro t h hall
      rw [runEvents_cons]
      apply ih
      · rcases t with ⟨s⟩
        rw [call_stack_mk] at h
        subst h
        have hev := hall ev (List.mem_cons_self ev evs)
        rcases ev with e | x | l
        · simp [Event.isEnter] at hev
        · rcases x with ⟨gs, ok, out⟩ | ⟨gs, ok, out, a⟩ <;> rfl
        · rfl
      · intro e2 he; exact hall e2 (List.mem_cons_of_mem ev he)

/-- A concrete open frame, used by witness statements. -/
def cfA : CallFrame := callFrameOnEnter 0 1 2 3 none 100 [4]

/-- Another concrete open frame, used by witness statements. -/
def cfB : CallFrame := callFrameOnEnter 3 5 6 7 (some 1) 200 []

/-- Claim C10: an exit event (call_end or create_end) delivered while the
open-call stack is empty leaves the tracer state completely unchanged:
finalize_frame on an empty stack is the identity and raises no failure,
so exit events can never underflow the stack. -/
theorem C10_exit_on_empty_stack_noop (gs : Nat) (ok : Bool) (out : List Nat)
    (ca a : Option Nat) :
    ∀ t : CallTracer, t.call_stack = [] →
      t.finalize_frame gs ok out ca = t ∧ t.call_end gs ok out = t ∧
      t.create_end gs ok out a = t := by
  intro t h
  rcases t with ⟨s⟩
  rw [call_stack_mk] at h
  subst h
  exact ⟨rfl, rfl, rfl⟩

theorem C10_witness :
    (CallTracer.mk []).finalize_frame 7 true [1] none = CallTracer.mk [] ∧
    (CallTracer.mk []).call_end 7 true [1] = CallTracer.mk [] ∧
    (CallTracer.mk []).create_end 7 true [1] (some 5) = CallTracer.mk [] :=
  C10_exit_on_empty_stack_noop 7 true [1] none (some 5) (CallTracer.mk []) rfl

/-- Claim C7: a log event appends the entry at the end of the log list of
the frame at the top of the open-call stack, never touching any other
frame or field, and is a no-op when the stack is empty. -/
theorem C7_log_appends_to_top_frame (t : CallTracer) (l : LogEntry) :
    ((t.log l).call_stack =
      match t.call_stack with
      | [] => []
      | f :: rest => f.pushLog l :: rest) ∧
    (t.call_stack = [] → t.log l = t) ∧
    (∀ f : CallFrame, (f.pushLog l).logs = f.logs ++ [l] ∧
      (f.pushLog l).calls = f.calls ∧ (f.pushLog l).output = f.output ∧
      (f.pushLog l).error = f.error) := by
  refine ⟨?_, ?_, ?_⟩
  · rcases t with ⟨s⟩
    rcases s with _ | ⟨f, rest⟩ <;> rfl
  · intro h
    rcases t with ⟨s⟩
    rw [call_stack_mk] at h
    subst h
    rfl
  · intro f
    cases f
    simp [CallFrame.pushLog, CallFrame.logs, CallFrame.calls, CallFrame.output,
      CallFrame.error]

theorem C7_witness :
    (CallTracer.mk []).log ⟨1, [2], [3]⟩ = CallTracer.mk [] ∧
    (cfA.pushLog ⟨1, [2], [3]⟩).logs = cfA.logs ++ [⟨1, [2], [3]⟩] :=
  ⟨(C7_log_appends_to_top_frame (CallTracer.mk []) ⟨1, [2], [3]⟩).2.1 rfl,
   ((C7_log_appends_to_top_frame (CallTracer.mk []) ⟨1, [2], [3]⟩).2.2 cfA).1⟩

/-- Claim C2: an enter event with the DELEGATECALL scheme pushes a frame
whose from field is the target address (the delegating contract itself)
and whose to field is the bytecode address (the address whose code
executes); every other scheme pushes the plain caller/target pair. -/
theorem C2_delegatecall_addressing (t : CallTracer)
    (caller target_address bytecode_address : Nat) (tv : Option Nat) (gl : Nat)
    (inp : List Nat) :
    (∀ scheme, scheme = 2 →
      (t.call scheme caller target_address bytecode_address tv gl inp).call_stack.head? =
        some (CallFrame.mk "DELEGATECALL" target_address (some bytecode_address)
          (tv.getD 0) gl 0 inp none none none [] [])) ∧
    (∀ scheme, scheme ≠ 2 →
      (t.call scheme caller target_address bytecode_address tv gl inp).call_stack.head? =
        some (CallFrame.mk (call_type_from_scheme scheme) caller (some target_address)
          (tv.getD 0) gl 0 inp none none none [] [])) := by
  constructor
  · intro scheme h
    subst h
    rfl
  · intro scheme h
    rcases scheme with _ | _ | _ | _ | n
    · rfl
    · rfl
    · exact absurd rfl h
    · rfl
    · rfl

theorem C2_witness :
    ((CallTracer.new.call 2 11 22 33 none 500 [1]).call_stack.head? =
      some (CallFrame.mk "DELEGATECALL" 22 (some 33) 0 500 0 [1] none none none [] [])) ∧
    ((CallTracer.new.call 0 11 22 33 none 500 [1]).call_stack.head? =
      some (CallFrame.mk "CALL" 11 (some 22) 0 500 0 [1] none none none [] [])) :=
  ⟨(C2_delegatecall_addressing CallTracer.new 11 22 33 none 500 [1]).1 2 rfl,
   (C2_delegatecall_addressing CallTracer.new 11 22 33 none 500 [1]).2 0 (by decide)⟩

/-- Claim C3: an exit with success and a created address present (a
successful CREATE or CREATE2) closes the frame with to set to the
deployed address and output set to its canonical 20-byte encoding; the
raw constructor return data is discarded — the closed frame does not
depend on it at all. -/
theorem C3_create_success_sets_address_output (t : CallTracer) (gs : Nat)
    (out : List Nat) (a : Nat) (f : CallFrame) (rest : List CallFrame)
    (h : t.call_stack = f :: rest) :
    (closeFrame f gs true out (some a)).toAddr = some a ∧
    (closeFrame f gs true out (some a)).output = some (addressBytes a) ∧
    (addressBytes a).length = 20 ∧
    (∀ out2, closeFrame f gs true out (some a) = closeFrame f gs true out2 (some a)) ∧
    (t.create_end gs true out (some a)).call_stack =
      (match rest with
       | [] => [closeFrame f gs true out (some a)]
       | p :: rest2 => p.pushCall (closeFrame f gs true out (some a)) :: rest2) := by
  rcases t with ⟨s⟩
  rw [call_stack_mk] at h
  subst h
  refine ⟨?_, ?_, ?_, ?_, ?_⟩
  · cases f
    simp [closeFrame, CallFrame.toAddr]
  · cases f
    simp [closeFrame, CallFrame.output]
  · simp [addressBytes]
  · intro out2
    cases f
    simp [closeFrame]
  · rcases rest with _ | ⟨p, rest2⟩ <;> rfl

theorem C3_witness :
    (closeFrame cfA 9 true [1, 2] (some 77)).toAddr = some 77 ∧
    (closeFrame cfA 9 true [1, 2] (some 77)).output = some (addressBytes 77) ∧
    closeFrame cfA 9 true [1, 2] (some 77) = closeFrame cfA 9 true [] (some 77) :=
  ⟨(C3_create_success_sets_address_output (CallTracer.mk [cfA]) 9 [1, 2] 77 cfA [] rfl).1,
   (C3_create_success_sets_address_output (CallTracer.mk [cfA]) 9 [1, 2] 77 cfA [] rfl).2.1,
   (C3_create_success_sets_address_output (CallTracer.mk [cfA]) 9 [1, 2] 77 cfA [] rfl).2.2.2.1 []⟩

/-- Claim C4: an exit with success = false closes the frame with error
set to the fixed execution reverted string, and revert_reason set (to the
0x-prefixed hexadecimal encoding of the returned bytes, no ABI decoding)
exactly when the returned bytes are non-empty; the frame was still open,
so its revert_reason was unset before closing. -/
theorem C4_failure_error_and_revert_reason (t : CallTracer) (gs : Nat)
    (out : List Nat) (ca : Option Nat) (f : CallFrame) (rest : List CallFrame)
    (h : t.call_stack = f :: rest) (hrr : f.revert_reason = none) :
    (closeFrame f gs false out ca).error = some "execution reverted" ∧
    ((closeFrame f gs false out ca).revert_reason ≠ none ↔ out ≠ []) ∧
    (out ≠ [] →
      (closeFrame f gs false out ca).revert_reason = some ("0x" ++ hexEncode out)) ∧
    (t.finalize_frame gs false out ca).call_stack =
      (match rest with
       | [] => [closeFrame f gs false out ca]
       | p :: rest2 => p.pushCall (closeFrame f gs false out ca) :: rest2) := by
  rcases t with ⟨s⟩
  rw [call_stack_mk] at h
  subst h
  rcases f with ⟨ct, fa, ta, v, g, gu, i, o, e, r, ls, cs⟩
  simp only [CallFrame.revert_reason] at hrr
  subst hrr
  refine ⟨?_, ?_, ?_, ?_⟩
  · simp [closeFrame, CallFrame.error]
  · rcases out with _ | ⟨b, bs⟩ <;> simp [closeFrame, CallFrame.revert_reason]
  · intro hne
    rcases out with _ | ⟨b, bs⟩
    · exact absurd rfl hne
    · simp [closeFrame, CallFrame.revert_reason]
  · rcases rest with _ | ⟨p, rest2⟩ <;> rfl

theorem C4_witness :
    (closeFrame cfA 9 false [171] none).error = some "execution reverted" ∧
    (closeFrame cfA 9 false [171] none).revert_reason = some "0xab" ∧
    (closeFrame cfA 9 false [] none).revert_reason = none :=
  ⟨(C4_failure_error_and_revert_reason (CallTracer.mk [cfA]) 9 [171] none cfA [] rfl rfl).1,
   by
    have h := (C4_failure_error_and_revert_reason (CallTracer.mk [cfA]) 9 [171] none cfA []
      rfl rfl).2.2.1 (by decide)
    simpa [hexEncode, byteHex, hexDigit] using h,
   by
    have h := (C4_failure_error_and_revert_reason (CallTracer.mk [cfA]) 9 [] none cfA []
      rfl rfl).2.1
    by_contra hne
    exact absurd (h.mp hne) (by decide)⟩

/-- Claim C5 counterexample: the engine stops after two enter events with
no exit events, leaving two frames open. No force-close happens: the
stack still holds two open frames, consuming the tracer returns the inner
frame unchanged — its error and output are still unset, not a failure
with empty output — and no single root containing the outer frame is
produced. -/
theorem C5_counterexample :
    (runEvents [Event.enterEv (EnterEv.call 0 1 2 3 none 100 []),
        Event.enterEv (EnterEv.call 0 4 5 6 none 50 [])]
      CallTracer.new).call_stack.length = 2 ∧
    (runEvents [Event.enterEv (EnterEv.call 0 1 2 3 none 100 []),
        Event.enterEv (EnterEv.call 0 4 5 6 none 50 [])] CallTracer.new).into_result =
      some (enterFrame (EnterEv.call 0 4 5 6 none 50 [])) ∧
    (enterFrame (EnterEv.call 0 4 5 6 none 50 [])).error = none ∧
    (enterFrame (EnterEv.call 0 4 5 6 none 50 [])).output = none :=
  ⟨rfl, rfl, rfl, rfl⟩

/-- Claim C5 amended: the tracer has no force-close rule for an early
engine halt: consuming it pops and returns the top (innermost still-open)
frame exactly as it stands, and any frames below it are dropped; a single
well-formed root is guaranteed only when every enter event was matched by
an exit event. -/
theorem C5_amended_into_result_pops_top (t : CallTracer) (f : CallFrame)
    (rest : List CallFrame) (h : t.call_stack = f :: rest) :
    t.into_result = some f := by
  rcases t with ⟨s⟩
  rw [call_stack_mk] at h
  subst h
  rfl

theorem C5_amended_witness :
    (CallTracer.mk [cfB, cfA]).into_result = some cfB :=
  C5_amended_into_result_pops_top (CallTracer.mk [cfB, cfA]) cfB [cfA] rfl

/-- Claim C6: when no enter event was ever observed, consuming the tracer
yields no frame, and the extraction step of trace_transaction returns the
typed NoTraceResult failure — never a defaulted frame of any kind. -/
theorem C6_no_enter_gives_no_trace_result (evs : List Event)
    (h : ∀ ev ∈ evs, ev.isEnter = false) :
    (runEvents evs CallTracer.new).into_result = none ∧
    extract_root (runEvents evs CallTracer.new) =
      Except.error TraceError.noTraceResult ∧
    ∀ f : CallFrame, extract_root (runEvents evs CallTracer.new) ≠ Except.ok f := by
  have hs : (runEvents evs CallTracer.new).call_stack = [] :=
    runEvents_no_enter_empty evs CallTracer.new rfl h
  have h1 : (runEvents evs CallTracer.new).into_result = none := by
    rw [CallTracer.into_result, hs]
    rfl
  have h2 : extract_root (runEvents evs CallTracer.new) =
      Except.error TraceError.noTraceResult := by
    rw [show extract_root (runEvents evs CallTracer.new) =
        (match (runEvents evs CallTracer.new).into_result with
         | some calls => Except.ok calls
         | none => Except.error TraceError.noTraceResult) from rfl, h1]
  refine ⟨h1, h2, ?_⟩
  intro f hf
  rw [h2] at hf
  exact Except.noConfusion hf

theorem C6_witness :
    extract_root (runEvents [Event.logEv ⟨1, [2], [3]⟩,
      Event.exitEv (ExitEv.callEnd 5 true [])] CallTracer.new) =
      Except.error TraceError.noTraceResult :=
  (C6_no_enter_gives_no_trace_result
    [Event.logEv ⟨1, [2], [3]⟩, Event.exitEv (ExitEv.callEnd 5 true [])] (by decide)).2.1

/-- Claim C1: on every exit event, the closed frame is appended at the
end of the child list of the new top frame when the stack is still
non-empty, and is kept as the single completed root when the stack became
empty; consequently one traced top-level call (enter, body, exit) leaves
exactly one root frame on the stack, whose child list is bodyCalls of the
body — the closed direct sub-calls and creations, recursively, in event
order. -/
theorem C1_reparent_and_single_root :
    (∀ (t : CallTracer) (gs : Nat) (ok : Bool) (out : List Nat) (ca : Option Nat)
      (f p : CallFrame) (rest : List CallFrame), t.call_stack = f :: p :: rest →
      (t.finalize_frame gs ok out ca).call_stack =
        p.pushCall (closeFrame f gs ok out ca) :: rest) ∧
    (∀ p c : CallFrame, (p.pushCall c).calls = p.calls ++ [c]) ∧
    (∀ (t : CallTracer) (gs : Nat) (ok : Bool) (out : List Nat) (ca : Option Nat)
      (f : CallFrame), t.call_stack = [f] →
      (t.finalize_frame gs ok out ca).call_stack = [closeFrame f gs ok out ca]) ∧
    (∀ (e : EnterEv) (b : EvTree) (x : ExitEv),
      (runEvents (topEvents e b x) CallTracer.new).call_stack =
        [applyExit (addBody (enterFrame e) (bodyLogs b) (bodyCalls b)) x] ∧
      (applyExit (addBody (enterFrame e) (bodyLogs b) (bodyCalls b)) x).calls =
        bodyCalls b) := by
  refine ⟨?_, ?_, ?_, ?_⟩
  · intro t gs ok out ca f p rest h
    rcases t with ⟨s⟩
    rw [call_stack_mk] at h
    subst h
    rfl
  · intro p c
    cases p
    simp [CallFrame.pushCall, CallFrame.calls]
  · intro t gs ok out ca f h
    rcases t with ⟨s⟩
    rw [call_stack_mk] at h
    subst h
    rfl
  · intro e b x
    constructor
    · rw [runTop]
    · rw [applyExit_calls, addBody_calls, enterFrame_calls, List.nil_append]

theorem C1_witness :
    ((CallTracer.mk [cfA, cfB]).finalize_frame 3 true [9] none).call_stack =
      [cfB.pushCall (closeFrame cfA 3 true [9] none)] ∧
    (cfB.pushCall (closeFrame cfA 3 true [9] none)).calls =
      cfB.calls ++ [closeFrame cfA 3 true [9] none] ∧
    ((CallTracer.mk [cfA]).finalize_frame 3 true [9] none).call_stack =
      [closeFrame cfA 3 true [9] none] ∧
    (runEvents (topEvents (EnterEv.call 0 1 2 3 none 100 [4]) EvTree.nil
        (ExitEv.callEnd 40 true [7])) CallTracer.new).call_stack =
      [applyExit (addBody (enterFrame (EnterEv.call 0 1 2 3 none 100 [4])) [] [])
        (ExitEv.callEnd 40 true [7])] :=
  ⟨C1_reparent_and_single_root.1 (CallTracer.mk [cfA, cfB]) 3 true [9] none cfA cfB [] rfl,
   C1_reparent_and_single_root.2.1 cfB (closeFrame cfA 3 true [9] none),
   C1_reparent_and_single_root.2.2.1 (CallTracer.mk [cfA]) 3 true [9] none cfA rfl,
   (C1_reparent_and_single_root.2.2.2 (EnterEv.call 0 1 2 3 none 100 [4]) EvTree.nil
     (ExitEv.callEnd 40 true [7])).1⟩

/-- Claim C8: given the engine-side gas contract (every reported spent
amount is at most the gas limit of the matching enter event), every frame
of the resulting call tree satisfies gas_used at most gas, recursively
down the child lists (with Nat gas values, 0 is a lower bound by type);
and gas_used of a frame is zero from entry until the frame closes. -/
theorem C8_gas_used_le_gas (e : EnterEv) (b : EvTree) (x : ExitEv)
    (h1 : x.gasSpent ≤ e.gasLimit) (h2 : BodyGasOk b) :
    (∀ f ∈ (runEvents (topEvents e b x) CallTracer.new).call_stack, FrameGasInv f) ∧
    (∀ en : EnterEv, (enterFrame en).gas_used = 0) := by
  constructor
  · intro f hf
    rw [runTop, call_stack_mk, List.mem_singleton] at hf
    subst hf
    apply frameGasInv_of
    · rw [applyExit_gas_used, applyExit_gas, addBody_gas, enterFrame_gas]
      exact h1
    · rw [applyExit_calls, addBody_calls, enterFrame_calls, List.nil_append]
      exact bodyCalls_gasInv b h2
  · exact enterFrame_gas_used

theorem C8_witness :
    FrameGasInv (applyExit (addBody (enterFrame (EnterEv.call 0 1 2 3 none 100 [4])) [] [])
      (ExitEv.callEnd 40 true [7])) :=
  (C8_gas_used_le_gas (EnterEv.call 0 1 2 3 none 100 [4]) EvTree.nil
      (ExitEv.callEnd 40 true [7]) (by decide) BodyGasOk.nil).1 _ (List.Mem.head _)

/-- A concrete frame whose optional to and output fields are absent, used
to examine the wire form. -/
def cfNull : CallFrame := CallFrame.mk "CALL" 1 none 0 5 3 [] none none none [] []

/-- Claim C9 counterexample: a frame whose optional to and output fields
are absent still serializes with the to and output keys present (bound to
null), so not every optional CallFrame field is omitted when absent —
only error and revert_reason carry a skip attribute. -/
theorem C9_counterexample :
    cfNull.toAddr = none ∧ cfNull.output = none ∧
    "to" ∈ serKeys cfNull ∧ "output" ∈ serKeys cfNull ∧
    ("to", Json.jnull) ∈ objFields (serializeFrame cfNull) ∧
    ("output", Json.jnull) ∈ objFields (serializeFrame cfNull) := by
  refine ⟨rfl, rfl, ?_, ?_, ?_, ?_⟩
  · show "to" ∈ (objFields (serializeFrame cfNull)).map Prod.fst
    rw [cfNull, serializeFrame.eq_def]
    simp [objFields, optJson]
  · show "output" ∈ (objFields (serializeFrame cfNull)).map Prod.fst
    rw [cfNull, serializeFrame.eq_def]
    simp [objFields, optJson]
  · rw [cfNull, serializeFrame.eq_def]
    simp [objFields, optJson]
  · rw [cfNull, serializeFrame.eq_def]
    simp [objFields, optJson]

/-- Claim C9 amended: value, gas and gasUsed serialize as 0x-prefixed
hexadecimal strings; the optional error and revert_reason fields are
omitted from the wire form exactly when absent, and the calls list
exactly when empty; the optional to and output fields are always present,
serialized as null when absent. -/
theorem C9_amended_wire_shape (f : CallFrame) :
    serKeys f = ["type", "from", "to", "value", "gas", "gasUsed", "input", "output"]
        ++ (if f.error = none then [] else ["error"])
        ++ (if f.revert_reason = none then [] else ["revertReason"])
        ++ (["logs"] ++ (if f.calls.isEmpty then [] else ["calls"])) ∧
    ("value", Json.jstr ("0x" ++ String.mk (Nat.toDigits 16 f.value))) ∈
      objFields (serializeFrame f) ∧
    ("gas", Json.jstr ("0x" ++ String.mk (Nat.toDigits 16 f.gas))) ∈
      objFields (serializeFrame f) ∧
    ("gasUsed", Json.jstr ("0x" ++ String.mk (Nat.toDigits 16 f.gas_used))) ∈
      objFields (serializeFrame f) ∧
    (f.toAddr = none → ("to", Json.jnull) ∈ objFields (serializeFrame f)) ∧
    (f.output = none → ("output", Json.jnull) ∈ objFields (serializeFrame f)) := by
  rcases f with ⟨ct, fa, ta, v, g, gu, i, o, e, r, ls, cs⟩
  refine ⟨?_, ?_, ?_, ?_, ?_, ?_⟩
  · rw [serKeys, serializeFrame.eq_def]
    rcases e with _ | es <;> rcases r with _ | rs <;> rcases cs with _ | ⟨c, cs⟩ <;>
      simp [objFields, CallFrame.error, CallFrame.revert_reason, CallFrame.calls]
  · rw [serializeFrame.eq_def]
    simp [objFields, serializeU256, CallFrame.value]
  · rw [serializeFrame.eq_def]
    simp [objFields, serializeU256, CallFrame.gas]
  · rw [serializeFrame.eq_def]
    simp [objFields, serializeU256, CallFrame.gas_used]
  · intro h
    simp only [CallFrame.toAddr] at h
    subst h
    rw [serializeFrame.eq_def]
    simp [objFields, optJson]
  · intro h
    simp only [CallFrame.output] at h
    subst h
    rw [serializeFrame.eq_def]
    simp [objFields, optJson]

theorem C9_amended_witness :
    ("to", Json.jnull) ∈ objFields (serializeFrame cfNull) ∧
    ("gas", Json.jstr ("0x" ++ String.mk (Nat.toDigits 16 cfNull.gas))) ∈
      objFields (serializeFrame cfNull) :=
  ⟨(C9_amended_wire_shape cfNull).2.2.2.2.1 rfl,
   (C9_amended_wire_shape cfNull).2.2.1⟩
